import Mathlib

/-
  Verification development for the ShopGenie repository.

  The Python sources under src/ are shallowly embedded below:
  pure functions become Lean functions, the stateful platform-status
  cache becomes explicit state passing, and fallible code returns
  Option.  Machine floats are modelled exactly (rationals for parsed
  values, reals for the composite score, which uses log10).
-/

namespace ShopGenie

/-! ## String helpers shared by the embedded modules.

Python semantics that the sources rely on: `str.strip` removes the
whitespace characters space, tab, newline, carriage return, vertical
tab and form feed from both ends; `str.lower` lowercases; membership
`sub in s` is substring containment. -/

/-- Whitespace class used by the Python `strip` and the regex class \s. -/
def pyWs (c : Char) : Bool :=
  c = ' ' || c = '\t' || c = '\n' || c = '\r' || c = '\x0b' || c = '\x0c'

/-- List form of Python `str.strip` with no arguments. -/
def stripList (l : List Char) : List Char :=
  ((l.dropWhile pyWs).reverse.dropWhile pyWs).reverse

/-- Python `str.strip` on strings. -/
def pyStrip (s : String) : String :=
  (stripList s.toList).asString

/-- Python `str.lower` (ASCII case folding suffices for this code base). -/
def pyLower (s : String) : String :=
  (s.toList.map Char.toLower).asString

/-- Whether the pattern occurs at the head of the text. -/
def headMatch : List Char → List Char → Bool
  | [], _ => true
  | _ :: _, [] => false
  | p :: ps, t :: ts => p = t && headMatch ps ts

/-- Substring containment, Python `sub in s` on the char-list level. -/
def containsSub (pat : List Char) : List Char → Bool
  | [] => headMatch pat []
  | t :: ts => headMatch pat (t :: ts) || containsSub pat ts

/-- Python `sub in s` on strings. -/
def strContains (s sub : String) : Bool :=
  containsSub sub.toList s.toList

/-- Python `s.startswith(p)`. -/
def pyStartsWith (s p : String) : Bool :=
  headMatch p.toList s.toList

/-- Python `s.endswith(p)`. -/
def pyEndsWith (s p : String) : Bool :=
  headMatch p.toList.reverse s.toList.reverse

/-- Split at the first occurrence of a separator character, Python
`s.split(sep, 1)` when the separator occurs: before and after parts. -/
def splitFirst (sep : Char) (l : List Char) : List Char × List Char :=
  (l.takeWhile (fun c => c != sep), (l.dropWhile (fun c => c != sep)).drop 1)

/-- Python `s.split(sub)[0]`: the text before the first occurrence of a
substring, the whole text when the substring is absent. -/
def beforeSub (pat : List Char) : List Char → List Char
  | [] => []
  | t :: ts => if headMatch pat (t :: ts) then [] else t :: beforeSub pat ts

/-- String form of `beforeSub`. -/
def strBefore (s sub : String) : String :=
  (beforeSub sub.toList s.toList).asString

/-! ## src/utils/message_parser.py -/

/-- Parsed search request, mirroring the `SearchRequest` dataclass with
its field defaults. -/
structure SearchRequest where
  item_name : Option String := none
  platform : Option String := none
  is_valid : Bool := false
  error_message : Option String := none
deriving DecidableEq, Repr

/-- Python truthiness of an `Optional[str]` field: `None` and the empty
string are falsy. -/
def truthyStr : Option String → Bool
  | none => false
  | some s => !s.isEmpty

/-- The platform token set of `MessageParser.__init__`. -/
def parserPlatforms : List String :=
  ["amazon", "amazon.com", "amzn", "ebay", "ebay.com", "bay"]

/-- MessageParser._is_platform: empty text is rejected, otherwise the
lowercased stripped text is looked up in the platform set. -/
def is_platform (text : String) : Bool :=
  if text.isEmpty then false
  else parserPlatforms.contains (pyLower (pyStrip text))

/-- MessageParser._parse_comma_separated: split on the first comma, strip
both parts, and make whichever part is a known platform the platform. -/
def parse_comma_separated (message : String) : Option SearchRequest :=
  if !(message.toList.contains ',') then none
  else
    let p := splitFirst ',' message.toList
    let part1 := pyStrip p.1.asString
    let part2 := pyStrip p.2.asString
    if is_platform part1 then
      some { item_name := some part2, platform := some part1 }
    else if is_platform part2 then
      some { item_name := some part1, platform := some part2 }
    else none

/-! Regex search used by `_parse_keyword_separated`.  The two patterns have
the shape `(.+?)\s+(kw1|kw2|...)\s+(.+?)$` under `re.IGNORECASE` and without
DOTALL or MULTILINE, so `.` matches anything except a newline and `$`
matches at the end of the text or just before one trailing newline.
`re.search` semantics: the leftmost starting position wins, the lazy first
group grows from length one, each `\s+` is greedy with backtracking, and
keyword alternatives are tried in written order. -/

/-- Slice `cs[a, b)` of a char list. -/
def slice (cs : List Char) (a b : Nat) : List Char :=
  (cs.drop a).take (b - a)

/-- No newline in the char list, the region the regex `.` may cover. -/
def noNl (cs : List Char) : Bool :=
  !(cs.contains '\n')

/-- Positions at which the anchor `$` matches: the end of the text, or
just before one final newline. -/
def matchGroup3 (cs : List Char) (pos : Nat) : Option (List Char) :=
  let n := cs.length
  if cs.getLast? = some '\n' && pos + 1 ≤ n - 1 && noNl (slice cs pos (n - 1)) then
    some (slice cs pos (n - 1))
  else if pos + 1 ≤ n && noNl (slice cs pos n) then
    some (slice cs pos n)
  else none

/-- Length of the whitespace run starting at a position. -/
def wsRunLen (cs : List Char) (pos : Nat) : Nat :=
  ((cs.drop pos).takeWhile pyWs).length

/-- Case-insensitive literal keyword match at a position, returning the
position just after the keyword. -/
def keywordEndAt (kw : List Char) (cs : List Char) (pos : Nat) : Option Nat :=
  if (slice cs pos (pos + kw.length)).map Char.toLower = kw then
    some (pos + kw.length)
  else none

/-- Descending list n, n-1, ..., 1 used for greedy `\s+` backtracking. -/
def downFrom : Nat → List Nat
  | 0 => []
  | n + 1 => (n + 1) :: downFrom n

/-- Attempt the tail `\s+(kw...)\s+(.+?)$` of the pattern starting right
after the first group. -/
def matchAfterGroup1 (kws : List (List Char)) (cs : List Char) (p1end : Nat) :
    Option (List Char) :=
  (downFrom (wsRunLen cs p1end)).findSome? fun w1 =>
    kws.findSome? fun kw =>
      (keywordEndAt kw cs (p1end + w1)).bind fun kEnd =>
        (downFrom (wsRunLen cs kEnd)).findSome? fun w2 =>
          matchGroup3 cs (kEnd + w2)

/-- Full `re.search` over the pattern `(.+?)\s+(alternatives)\s+(.+?)$`,
returning the first and third groups. -/
def regexKeywordSearch (kws : List String) (msg : String) :
    Option (String × String) :=
  let cs := msg.toList
  let n := cs.length
  (List.range n).findSome? fun s =>
    (List.range (n - s)).findSome? fun gm1 =>
      let p1end := s + gm1 + 1
      let g1 := slice cs s p1end
      if noNl g1 then
        (matchAfterGroup1 (kws.map String.toList) cs p1end).map fun g3 =>
          (g1.asString, g3.asString)
      else none

/-- MessageParser._parse_keyword_separated, second pattern: on a match of
`(.+?)\s+(for)\s+(.+?)$` with a platform first part, the third group is
the item. -/
def parse_for_pattern (message : String) : Option SearchRequest :=
  match regexKeywordSearch ["for"] message with
  | some (g1, g3) =>
    let part1 := pyStrip g1
    let part2 := pyStrip g3
    if is_platform part1 then
      some { item_name := some part2, platform := some part1 }
    else none
  | none => none

/-- MessageParser._parse_keyword_separated: try `item (on|from|in|at)
platform` with a platform-token check on the trailing part, then the
reverse `platform for item` pattern. -/
def parse_keyword_separated (message : String) : Option SearchRequest :=
  match regexKeywordSearch ["on", "from", "in", "at"] message with
  | some (g1, g3) =>
    let part1 := pyStrip g1
    let part2 := pyStrip g3
    if is_platform part2 then
      some { item_name := some part1, platform := some part2 }
    else parse_for_pattern message
  | none => parse_for_pattern message

/-- MessageParser._parse_single_item: a bare platform token is
platform-only, anything else is an item name without a platform. -/
def parse_single_item (message : String) : SearchRequest :=
  if is_platform message then { platform := some message }
  else { item_name := some message }

/-- Guidance text used when the input is blank. -/
def emptyQueryMsg : String :=
  "Please provide a search query. Format: \x27item name, platform\x27 or \x27platform, item name\x27"

/-- Guidance text for a request that has an item but no platform. -/
def missingPlatformMsg : String :=
  "Missing platform! Please specify where to search.\n\n🔍 *Supported formats:*\n• `item name, platform`\n• `platform, item name`\n• `item name on platform`\n\n📱 *Supported platforms:* Amazon, eBay\n\n*Example:* `bluetooth speaker, amazon`"

/-- Guidance text for a request that has a platform but no item. -/
def missingItemMsg : String :=
  "Missing item name! Please specify what to search for.\n\n🔍 *Supported formats:*\n• `item name, platform`\n• `platform, item name`\n• `item name on platform`\n\n📱 *Supported platforms:* Amazon, eBay\n\n*Example:* `bluetooth speaker, amazon`"

/-- Guidance text when no strategy extracted anything usable. -/
def unparseableMsg : String :=
  "Could not understand your search request!\n\n🔍 *Supported formats:*\n• `item name, platform`\n• `platform, item name`\n• `item name on platform`\n\n📱 *Supported platforms:* Amazon, eBay\n\n*Example:* `bluetooth speaker, amazon`"

/-- Validation block at the end of `parse_search_message`: valid exactly
when both fields are truthy, otherwise attach the guidance message of the
failing case. -/
def validate_request (r : SearchRequest) : SearchRequest :=
  if truthyStr r.item_name && truthyStr r.platform then
    { r with is_valid := true }
  else if truthyStr r.item_name then
    { r with error_message := some missingPlatformMsg }
  else if truthyStr r.platform then
    { r with error_message := some missingItemMsg }
  else
    { r with error_message := some unparseableMsg }

/-- MessageParser.parse_search_message: blank input short-circuits with
its own message; otherwise the comma, keyword and single-item strategies
are tried in order and the first hit is validated. -/
def parse_search_message (message : String) : SearchRequest :=
  if pyStrip message = "" then { error_message := some emptyQueryMsg }
  else
    let cleaned := pyStrip message
    let r0 :=
      ((parse_comma_separated cleaned).orElse
        (fun _ => parse_keyword_separated cleaned)).getD
        (parse_single_item cleaned)
    validate_request r0

/-! ### Shape lemmas for the parsing strategies.

Every strategy constructs a `SearchRequest` with the dataclass defaults
for `is_valid` and `error_message`; only the final validation block
touches those two fields. -/

theorem comma_shape (m : String) (r : SearchRequest)
    (h : parse_comma_separated m = some r) :
    r.is_valid = false ∧ r.error_message = none := by
  unfold parse_comma_separated at h
  simp only [] at h
  split at h
  · exact absurd h (by simp)
  · split at h
    · injection h with h
      subst h
      exact ⟨rfl, rfl⟩
    · split at h
      · injection h with h
        subst h
        exact ⟨rfl, rfl⟩
      · exact absurd h (by simp)

theorem for_pattern_shape (m : String) (r : SearchRequest)
    (h : parse_for_pattern m = some r) :
    r.is_valid = false ∧ r.error_message = none := by
  unfold parse_for_pattern at h
  split at h
  · simp only [] at h
    split at h
    · injection h with h
      subst h
      exact ⟨rfl, rfl⟩
    · exact absurd h (by simp)
  · exact absurd h (by simp)

theorem keyword_shape (m : String) (r : SearchRequest)
    (h : parse_keyword_separated m = some r) :
    r.is_valid = false ∧ r.error_message = none := by
  unfold parse_keyword_separated at h
  split at h
  · simp only [] at h
    split at h
    · injection h with h
      subst h
      exact ⟨rfl, rfl⟩
    · exact for_pattern_shape m r h
  · exact for_pattern_shape m r h

theorem single_item_shape (m : String) :
    (parse_single_item m).is_valid = false
    ∧ (parse_single_item m).error_message = none := by
  unfold parse_single_item
  split
  · exact ⟨rfl, rfl⟩
  · exact ⟨rfl, rfl⟩

/-- Combined strategy result of `parse_search_message` on a non-blank
message, before validation. -/
def strategy_result (c : String) : SearchRequest :=
  ((parse_comma_separated c).orElse
    (fun _ => parse_keyword_separated c)).getD (parse_single_item c)

theorem strategy_result_shape (c : String) :
    (strategy_result c).is_valid = false
    ∧ (strategy_result c).error_message = none := by
  unfold strategy_result
  cases h1 : parse_comma_separated c with
  | some r =>
    simpa [Option.orElse] using comma_shape c r h1
  | none =>
    cases h2 : parse_keyword_separated c with
    | some r =>
      simpa [Option.orElse] using keyword_shape c r h2
    | none =>
      simpa [Option.orElse] using single_item_shape c

theorem parse_search_message_eq (message : String)
    (h : ¬ pyStrip message = "") :
    parse_search_message message
      = validate_request (strategy_result (pyStrip message)) := by
  unfold parse_search_message strategy_result
  simp [h]

/-- Non-empty strings are truthy. -/
theorem truthy_some_of_ne (s : String) (h : ¬ s = "") :
    truthyStr (some s) = true := by
  have hs : s.isEmpty = false := by
    cases hs : s.isEmpty
    · rfl
    · exact absurd ((String.isEmpty_iff s).mp hs) h
  simp [truthyStr, hs]

theorem truthy_none : truthyStr none = false := rfl

/-- A recognized platform token is never the empty string. -/
theorem platform_ne_empty (s : String) (h : is_platform s = true) :
    ¬ s = "" := by
  intro he
  rw [he] at h
  exact absurd h (by decide)

set_option maxRecDepth 16000 in
theorem truthy_msg_constants :
    truthyStr (some emptyQueryMsg) = true
    ∧ truthyStr (some missingPlatformMsg) = true
    ∧ truthyStr (some missingItemMsg) = true
    ∧ truthyStr (some unparseableMsg) = true := by
  refine ⟨by decide, by decide, by decide, by decide⟩

/-- C5 counterexample: in the input ", amazon" exactly one comma part
(the second) is a recognized platform token, yet the parse is invalid,
because the other side is empty; the claim asserts a valid request. -/
theorem c5_counterexample :
    (splitFirst ',' (pyStrip ", amazon").toList
        = (("").toList, (" amazon").toList))
    ∧ is_platform (pyStrip "") = false
    ∧ is_platform (pyStrip " amazon") = true
    ∧ (parse_search_message ", amazon").is_valid = false := by
  refine ⟨by decide, by decide, by decide, ?_⟩
  decide

/-- C5 (amended): on a comma-separated message where exactly one stripped
part is a recognized platform token and the other stripped part is
non-empty, the parse is valid, with the platform on the matching side and
the item on the other side, in either order. -/
theorem c5_comma_either_order (message : String) (p1 p2 : List Char)
    (hsplit : splitFirst ',' (pyStrip message).toList = (p1, p2))
    (hcomma : (pyStrip message).toList.contains ',' = true) :
    (is_platform (pyStrip p1.asString) = true →
      is_platform (pyStrip p2.asString) = false →
      pyStrip p2.asString ≠ "" →
      parse_search_message message
        = { item_name := some (pyStrip p2.asString),
            platform := some (pyStrip p1.asString),
            is_valid := true, error_message := none })
    ∧ (is_platform (pyStrip p1.asString) = false →
      is_platform (pyStrip p2.asString) = true →
      pyStrip p1.asString ≠ "" →
      parse_search_message message
        = { item_name := some (pyStrip p1.asString),
            platform := some (pyStrip p2.asString),
            is_valid := true, error_message := none }) := by
  have hne : ¬ pyStrip message = "" := by
    intro he
    rw [he] at hcomma
    exact absurd hcomma (by decide)
  have hsplit2 : splitFirst ',' (pyStrip message).data = (p1, p2) := hsplit
  constructor
  · intro h1 h2 hne2
    rw [parse_search_message_eq message hne]
    unfold strategy_result parse_comma_separated
    rw [if_neg (by rw [hcomma]; decide)]
    simp [hsplit, hsplit2, h1, Option.orElse, validate_request,
      truthy_some_of_ne _ hne2, truthy_some_of_ne _ (platform_ne_empty _ h1)]
  · intro h1 h2 hne1
    rw [parse_search_message_eq message hne]
    unfold strategy_result parse_comma_separated
    rw [if_neg (by rw [hcomma]; decide)]
    simp [hsplit, hsplit2, h1, h2, Option.orElse, validate_request,
      truthy_some_of_ne _ hne1, truthy_some_of_ne _ (platform_ne_empty _ h2)]

/-- Witness for C5 at the two documented example inputs, one per comma
order. -/
theorem c5_comma_witness :
    parse_search_message "bluetooth speaker, amazon"
      = { item_name := some "bluetooth speaker", platform := some "amazon",
          is_valid := true, error_message := none }
    ∧ parse_search_message "ebay, wireless headphones"
      = { item_name := some "wireless headphones", platform := some "ebay",
          is_valid := true, error_message := none } := by
  constructor
  · exact (c5_comma_either_order "bluetooth speaker, amazon"
      ("bluetooth speaker").toList (" amazon").toList
      (by decide) (by decide)).2 (by decide) (by decide) (by decide)
  · exact (c5_comma_either_order "ebay, wireless headphones"
      ("ebay").toList (" wireless headphones").toList
      (by decide) (by decide)).1 (by decide) (by decide) (by decide)

/-- C6: the parse is valid exactly when both extracted fields are
non-empty; in every failing case a non-empty guidance message is
attached, chosen by which part is missing, and the three templated
guidance messages are pairwise distinct. -/
theorem c6_validity_and_messages (message : String) :
    (parse_search_message message).is_valid
      = (truthyStr (parse_search_message message).item_name
          && truthyStr (parse_search_message message).platform)
    ∧ ((parse_search_message message).is_valid = false →
        truthyStr (parse_search_message message).error_message = true
        ∧ (parse_search_message message).error_message
          = some (if truthyStr (parse_search_message message).item_name then
              missingPlatformMsg
            else if truthyStr (parse_search_message message).platform then
              missingItemMsg
            else if pyStrip message = "" then emptyQueryMsg
            else unparseableMsg))
    ∧ missingPlatformMsg ≠ missingItemMsg
    ∧ missingPlatformMsg ≠ unparseableMsg
    ∧ missingItemMsg ≠ unparseableMsg := by
  refine ⟨?_, ?_, by decide, by decide, by decide⟩
  · by_cases hempty : pyStrip message = ""
    · unfold parse_search_message
      simp [hempty, truthy_none]
    · rw [parse_search_message_eq message hempty]
      obtain ⟨hv, _⟩ := strategy_result_shape (pyStrip message)
      unfold validate_request
      cases hi : truthyStr (strategy_result (pyStrip message)).item_name <;>
        cases hp : truthyStr (strategy_result (pyStrip message)).platform <;>
        simp [hi, hp, hv]
  · intro hinvalid
    by_cases hempty : pyStrip message = ""
    · unfold parse_search_message
      simp [hempty, truthy_none, truthy_msg_constants.1]
    · rw [parse_search_message_eq message hempty] at hinvalid ⊢
      obtain ⟨hv, _⟩ := strategy_result_shape (pyStrip message)
      unfold validate_request at hinvalid ⊢
      cases hi : truthyStr (strategy_result (pyStrip message)).item_name <;>
        cases hp : truthyStr (strategy_result (pyStrip message)).platform
      · simp [hi, hp, hempty, truthy_msg_constants.2.2.2]
      · simp [hi, hp, truthy_msg_constants.2.2.1]
      · simp [hi, hp, truthy_msg_constants.2.1]
      · simp [hi, hp, hv] at hinvalid

set_option maxRecDepth 16000 in
/-- Witness for C6 at a concrete input missing the platform: the error
text is non-empty and equals the missing-platform template. -/
theorem c6_witness :
    truthyStr (parse_search_message "just a phone").error_message = true
    ∧ (parse_search_message "just a phone").error_message
      = some missingPlatformMsg := by
  have h := (c6_validity_and_messages "just a phone").2.1
  have hinv : (parse_search_message "just a phone").is_valid = false := by
    decide
  have hr := h hinv
  refine ⟨hr.1, ?_⟩
  rw [hr.2]
  decide

/-! ## src/utils/platform_status.py

The cache `_status_cache` is a dict from platform name to an entry; the
wall clock (`datetime.now()`) is passed explicitly, measured in seconds.
The cache duration is `timedelta(minutes=15)`, that is 900 seconds. -/

/-- One value of the `_status_cache` dict. -/
structure CacheEntry where
  status : String
  last_checked : Int
  product_count : Nat
  success : Bool
deriving DecidableEq, Repr

/-- The status cache, keyed by platform name. -/
def StatusCache : Type := String → Option CacheEntry

/-- Fresh cache of a newly constructed `PlatformStatus`. -/
def emptyStatusCache : StatusCache := fun _ => none

/-- The 15-minute cache duration, in seconds. -/
def cacheDurationSec : Int := 15 * 60

/-- PlatformStatus.record_platform_result: the status is computed fresh
from the arguments and upserted together with the timestamp. -/
def record_platform_result (st : StatusCache) (platform : String)
    (success : Bool) (product_count : Nat) (now : Int) : StatusCache :=
  fun k =>
    if k = platform then
      some { status :=
               if !success then "error"
               else if product_count = 0 then "limited"
               else "working",
             last_checked := now,
             product_count := product_count,
             success := success }
    else st k

/-- PlatformStatus.get_platform_status: absent key or an entry strictly
older than the cache duration gives none, otherwise the stored status. -/
def get_platform_status (st : StatusCache) (platform : String)
    (now : Int) : Option String :=
  match st platform with
  | none => none
  | some entry =>
    if now - entry.last_checked > cacheDurationSec then none
    else some entry.status

/-- C7: a recorded result stores error/limited/working computed fresh
from the success flag and product count, independently of the prior
cache; a query within the 15-minute window returns exactly that status,
a query strictly later returns none, and a missing entry returns none. -/
theorem c7_record_then_get (st : StatusCache) (platform : String)
    (success : Bool) (product_count : Nat) (now query : Int) :
    (get_platform_status
        (record_platform_result st platform success product_count now)
        platform query
      = if query - now > cacheDurationSec then none
        else some (if success = false then "error"
          else if product_count = 0 then "limited"
          else "working"))
    ∧ (st platform = none → get_platform_status st platform query = none) := by
  constructor
  · unfold get_platform_status record_platform_result
    simp only [if_pos rfl]
    cases success <;> simp
  · intro h
    unfold get_platform_status
    rw [h]

/-- Witness for C7: recording a failure on a fresh cache and reading it
back 500 seconds later yields the error status; a platform never
recorded reads back as absent. -/
theorem c7_witness :
    get_platform_status
        (record_platform_result emptyStatusCache "ebay" false 0 0)
        "ebay" 500 = some "error"
    ∧ get_platform_status emptyStatusCache "amazon" 0 = none := by
  constructor
  · have h := (c7_record_then_get emptyStatusCache "ebay" false 0 0 500).1
    rw [h]
    decide
  · exact (c7_record_then_get emptyStatusCache "amazon" true 0 0 0).2 rfl

/-! ## src/scrapers/base_scraper.py: the Product dataclass

Ratings always come out of the scrapers as decimal values, so the float
field is modelled exactly by a rational; the sales/review count is a
non-negative integer.  The composite score lives in the reals because it
uses log10. -/

/-- Product value object from base_scraper.py. -/
structure Product where
  title : String
  price : String
  rating : Rat
  sales : Nat
  image_url : String
  product_url : String
  source : String := "unknown"
deriving DecidableEq, Repr

/-! ## src/utils/item_comparator.py -/

/-- Characters kept by the regex substitution `re.sub(r"[^\d.,]", "", s)`
in `_extract_price_value`. -/
def keepPriceChar (c : Char) : Bool :=
  c.isDigit || c = '.' || c = ','

/-- Cleaned price text: the regex substitution followed by
`replace(",", "")`. -/
def priceClean (s : String) : List Char :=
  (s.toList.filter keepPriceChar).filter (fun c => c != ',')

/-- Accumulate a digit run into a natural number. -/
def digitsToNat (l : List Char) : Nat :=
  l.foldl (fun a c => a * 10 + (c.toNat - 48)) 0

/-- Python `float()` on a cleaned numeric string: it succeeds exactly
when the text is made of digits and at most one dot and holds at least
one digit, and then denotes the exact decimal value. -/
def parsePyFloat (l : List Char) : Option Rat :=
  if l.all (fun c => c.isDigit || c = '.') && l.count '.' ≤ 1
      && l.any Char.isDigit then
    let ip := l.takeWhile (fun c => c != '.')
    let fp := (l.dropWhile (fun c => c != '.')).drop 1
    some ((digitsToNat ip : Rat) + (digitsToNat fp : Rat) / (10 : Rat) ^ fp.length)
  else none

/-- ItemComparator._extract_price_value: empty text gives 0.0, a failed
parse gives 0.0, otherwise the parsed value. -/
def extract_price_value (price_str : String) : Rat :=
  if price_str.isEmpty then 0
  else
    match parsePyFloat (priceClean price_str) with
    | some v => v
    | none => 0

/-- ItemComparator.calculate_score.  The score is real-valued because the
sales factor uses log10; the rating and parsed-price branches test the
rational fields directly, mirroring the Python comparisons.  The
try/except wrapper of the source is dead here: with a rational rating
and a natural sales count every step is total. -/
noncomputable def calculate_score (product : Product)
    (price_weight rating_weight sales_weight : ℝ) : ℝ :=
  let rating_score : ℝ :=
    if (0 : Rat) < product.rating then min ((product.rating : ℝ) / 5) 1 else 0
  let sales_score : ℝ :=
    if 0 < product.sales then
      min (Real.logb 10 ((product.sales : ℝ) + 1) / 6) 1
    else 0
  let price_value := extract_price_value product.price
  let price_score : ℝ :=
    if (0 : Rat) < price_value then
      max 0 (1 - min ((price_value : ℝ) / 1000) 1)
    else 0.5
  rating_score * rating_weight + sales_score * sales_weight
    + price_score * price_weight

/-- Composite score with the default weights, the `score` ranking key. -/
noncomputable def composite_score (product : Product) : ℝ :=
  calculate_score product 0.3 0.4 0.3

/-- Clamp to an interval, the spec-side primitive. -/
noncomputable def clampR (x lo hi : ℝ) : ℝ := max lo (min x hi)

/-- Rating component as the spec words it: rating/5 clamped to the unit
interval, 0 when the rating is 0 (unknown). -/
noncomputable def spec_rating_component (p : Product) : ℝ :=
  if p.rating = 0 then 0 else clampR ((p.rating : ℝ) / 5) 0 1

/-- Sales component as the spec words it: log10(sales+1)/6 clamped to
the unit interval, 0 when the sales count is 0 (unknown). -/
noncomputable def spec_sales_component (p : Product) : ℝ :=
  if p.sales = 0 then 0
  else clampR (Real.logb 10 ((p.sales : ℝ) + 1) / 6) 0 1

/-- Price component exactly as the claim words it: the clamp whenever a
numeric price parses from the price text, and 0.5 only when none
parses. -/
noncomputable def spec_price_component_claim (p : Product) : ℝ :=
  match parsePyFloat (priceClean p.price) with
  | some v => clampR (1 - (v : ℝ) / 1000) 0 1
  | none => 0.5

/-- Price component as the code actually behaves: the clamp only for a
parsed positive value, and the neutral 0.5 when parsing fails or the
parsed value is zero. -/
noncomputable def spec_price_component_amended (p : Product) : ℝ :=
  match parsePyFloat (priceClean p.price) with
  | some v => if 0 < v then clampR (1 - (v : ℝ) / 1000) 0 1 else 0.5
  | none => 0.5

/-- Total score as the original claim words it. -/
noncomputable def spec_score_claim (p : Product) : ℝ :=
  0.4 * spec_rating_component p + 0.3 * spec_sales_component p
    + 0.3 * spec_price_component_claim p

/-- The extraction function is the parse with default 0. -/
theorem extract_price_value_eq (s : String) :
    extract_price_value s = (parsePyFloat (priceClean s)).getD 0 := by
  unfold extract_price_value
  by_cases he : s.isEmpty
  · rw [if_pos he]
    have : s = "" := (String.isEmpty_iff s).mp he
    subst this
    rfl
  · rw [if_neg he]
    cases parsePyFloat (priceClean s) <;> rfl

/-- Parsed price values are never negative: they are built from digit
runs. -/
theorem parsePyFloat_nonneg (l : List Char) (v : Rat)
    (h : parsePyFloat l = some v) : 0 ≤ v := by
  unfold parsePyFloat at h
  split at h
  · injection h with h
    subst h
    positivity
  · exact absurd h (by simp)

/-- Zero-priced product used to separate the code from the claim. -/
def zeroPriceProduct : Product :=
  { title := "Zero priced item", price := "$0.00", rating := 0, sales := 0,
    image_url := "", product_url := "", source := "eBay" }

/-- C3 counterexample: on a product whose price text is "$0.00" a
numeric price parses (value 0), so the claim predicts price component
1.0 and total 0.3, but the code only takes the clamp branch for a
strictly positive parsed value and scores the neutral 0.5, total 0.15. -/
theorem c3_counterexample :
    parsePyFloat (priceClean zeroPriceProduct.price) = some 0
    ∧ composite_score zeroPriceProduct ≠ spec_score_claim zeroPriceProduct := by
  have hclean : priceClean zeroPriceProduct.price = ['0', '.', '0', '0'] := by
    decide
  have hparse : parsePyFloat (priceClean zeroPriceProduct.price) = some 0 := by
    unfold parsePyFloat
    rw [hclean]
    rw [if_pos (by decide)]
    simp only []
    have h1 : List.takeWhile (fun c => c != '.') ['0', '.', '0', '0'] = ['0'] := by
      decide
    have h2 : List.drop 1 (List.dropWhile (fun c => c != '.') ['0', '.', '0', '0'])
        = ['0', '0'] := by
      decide
    rw [h1, h2]
    have h3 : digitsToNat ['0'] = 0 := by decide
    have h4 : digitsToNat ['0', '0'] = 0 := by decide
    rw [h3, h4]
    norm_num
  have hextract : extract_price_value zeroPriceProduct.price = 0 := by
    rw [extract_price_value_eq, hparse]
    rfl
  refine ⟨hparse, ?_⟩
  unfold composite_score calculate_score spec_score_claim
    spec_rating_component spec_sales_component spec_price_component_claim
  rw [hparse, hextract]
  simp only [zeroPriceProduct]
  norm_num [clampR]

/-- Rating branch of the code equals the spec-worded rating component. -/
theorem rating_branch_eq (p : Product) :
    (if (0 : Rat) < p.rating then min ((p.rating : ℝ) / 5) 1 else 0)
      = spec_rating_component p := by
  unfold spec_rating_component clampR
  rcases lt_trichotomy (p.rating : Rat) 0 with h | h | h
  · rw [if_neg (by exact not_lt.mpr h.le), if_neg (by exact h.ne)]
    have hr : ((p.rating : ℝ) / 5) ≤ 0 := by
      have : (p.rating : ℝ) < 0 := by exact_mod_cast h
      linarith
    rw [min_eq_left (le_trans hr zero_le_one), max_eq_left hr]
  · rw [if_neg (by rw [h]; exact lt_irrefl 0), if_pos h]
  · rw [if_pos h, if_neg (by exact h.ne.symm)]
    have hr : (0 : ℝ) ≤ (p.rating : ℝ) / 5 := by
      have : (0 : ℝ) < (p.rating : ℝ) := by exact_mod_cast h
      positivity
    rw [max_eq_right (le_min hr zero_le_one)]

/-- Sales branch of the code equals the spec-worded sales component. -/
theorem sales_branch_eq (p : Product) :
    (if 0 < p.sales then
        min (Real.logb 10 ((p.sales : ℝ) + 1) / 6) 1
      else 0)
      = spec_sales_component p := by
  unfold spec_sales_component clampR
  rcases Nat.eq_zero_or_pos p.sales with h | h
  · rw [if_neg (by omega), if_pos h]
  · rw [if_pos h, if_neg (by omega)]
    have hl : (0 : ℝ) ≤ Real.logb 10 ((p.sales : ℝ) + 1) / 6 := by
      have h1 : (1 : ℝ) ≤ (p.sales : ℝ) + 1 := by
        have : (0 : ℝ) ≤ (p.sales : ℝ) := Nat.cast_nonneg _
        linarith
      have := Real.logb_nonneg (by norm_num : (1 : ℝ) < 10) h1
      linarith
    rw [max_eq_right (le_min hl zero_le_one)]

/-- Price branch of the code equals the amended price component. -/
theorem price_branch_eq (p : Product) :
    (if (0 : Rat) < extract_price_value p.price then
        max 0 (1 - min ((extract_price_value p.price : ℝ) / 1000) 1)
      else 0.5)
      = spec_price_component_amended p := by
  unfold spec_price_component_amended
  rw [extract_price_value_eq]
  cases hp : parsePyFloat (priceClean p.price) with
  | none => simp
  | some v =>
    simp only [Option.getD_some]
    by_cases hv : (0 : Rat) < v
    · rw [if_pos hv, if_pos hv]
      unfold clampR
      have hv0 : (0 : ℝ) < (v : ℝ) := by exact_mod_cast hv
      rcases le_or_lt ((v : ℝ) / 1000) 1 with h | h
      · rw [min_eq_left h]
        have hx : (0 : ℝ) ≤ (v : ℝ) / 1000 := by positivity
        rw [min_eq_left (by linarith : 1 - (v : ℝ) / 1000 ≤ 1)]
      · rw [min_eq_right h.le]
        have h2 : 1 - (v : ℝ) / 1000 < 0 := by linarith
        rw [min_eq_left (by linarith : 1 - (v : ℝ) / 1000 ≤ 1),
          max_eq_left h2.le, max_eq_left (by norm_num)]
    · rw [if_neg hv, if_neg hv]

/-- C3 (amended): the default composite score is 0.4 times the rating
component plus 0.3 times the sales component plus 0.3 times the price
component, where the price component is the clamp exactly when a
strictly positive numeric price parses and the neutral 0.5 when parsing
fails or the parsed value is zero. -/
theorem c3_score_formula (p : Product) :
    calculate_score p 0.3 0.4 0.3
      = 0.4 * spec_rating_component p + 0.3 * spec_sales_component p
        + 0.3 * spec_price_component_amended p := by
  unfold calculate_score
  simp only []
  rw [rating_branch_eq, sales_branch_eq, price_branch_eq]
  ring

/-- Each of the three branch scores computed by `calculate_score` lies in
the unit interval. -/
theorem branch_scores_in_unit (p : Product) :
    (0 ≤ (if (0 : Rat) < p.rating then min ((p.rating : ℝ) / 5) 1 else 0)
      ∧ (if (0 : Rat) < p.rating then min ((p.rating : ℝ) / 5) 1 else 0) ≤ 1)
    ∧ (0 ≤ (if 0 < p.sales then
          min (Real.logb 10 ((p.sales : ℝ) + 1) / 6) 1 else 0)
      ∧ (if 0 < p.sales then
          min (Real.logb 10 ((p.sales : ℝ) + 1) / 6) 1 else 0) ≤ 1)
    ∧ (0 ≤ (if (0 : Rat) < extract_price_value p.price then
          max 0 (1 - min ((extract_price_value p.price : ℝ) / 1000) 1)
        else 0.5)
      ∧ (if (0 : Rat) < extract_price_value p.price then
          max 0 (1 - min ((extract_price_value p.price : ℝ) / 1000) 1)
        else 0.5) ≤ 1) := by
  refine ⟨⟨?_, ?_⟩, ⟨?_, ?_⟩, ⟨?_, ?_⟩⟩
  · split
    · rename_i h
      have : (0 : ℝ) ≤ (p.rating : ℝ) / 5 := by
        have : (0 : ℝ) < (p.rating : ℝ) := by exact_mod_cast h
        positivity
      exact le_min this zero_le_one
    · exact le_refl 0
  · split
    · exact min_le_right _ _
    · exact zero_le_one
  · split
    · rename_i h
      have h1 : (1 : ℝ) ≤ (p.sales : ℝ) + 1 := by
        have : (0 : ℝ) ≤ (p.sales : ℝ) := Nat.cast_nonneg _
        linarith
      have := Real.logb_nonneg (by norm_num : (1 : ℝ) < 10) h1
      exact le_min (by linarith) zero_le_one
    · exact le_refl 0
  · split
    · exact min_le_right _ _
    · exact zero_le_one
  · split
    · exact le_max_left _ _
    · norm_num
  · split
    · rename_i h
      have hv0 : (0 : ℝ) ≤ (extract_price_value p.price : ℝ) := by
        exact_mod_cast le_of_lt h
      have hmin : (0 : ℝ) ≤ min ((extract_price_value p.price : ℝ) / 1000) 1 :=
        le_min (by positivity) zero_le_one
      rw [max_le_iff]
      constructor
      · norm_num
      · linarith
    · norm_num

/-- C9: with the default weights, on a product whose rating lies in
[0, 5] and whose sales count is a natural number, the composite score
lies in [0, 1]; the embedded scoring function is total, so the
exception branch of the source (which would return 0.0) is dead for
such inputs. -/
theorem c9_score_range (p : Product)
    (h0 : (0 : Rat) ≤ p.rating) (h5 : p.rating ≤ 5) :
    0 ≤ calculate_score p 0.3 0.4 0.3 ∧ calculate_score p 0.3 0.4 0.3 ≤ 1 := by
  obtain ⟨⟨r0, r1⟩, ⟨s0, s1⟩, ⟨q0, q1⟩⟩ := branch_scores_in_unit p
  unfold calculate_score
  simp only []
  constructor
  · nlinarith
  · nlinarith

/-- Witness product for the score-range theorem. -/
def rangeWitnessProduct : Product :=
  { title := "Example headset", price := "$19.99", rating := 4, sales := 250,
    image_url := "", product_url := "https://www.ebay.com/itm/1", source := "eBay" }

/-- Witness for C9 at a concrete product with rating 4 and 250 sales. -/
theorem c9_witness :
    0 ≤ calculate_score rangeWitnessProduct 0.3 0.4 0.3
    ∧ calculate_score rangeWitnessProduct 0.3 0.4 0.3 ≤ 1 :=
  c9_score_range rangeWitnessProduct (by decide) (by decide)

/-! ## ItemComparator.rank_products

Python `sorted` is a stable sort; `reverse=True` reverses the comparison
while keeping ties in input order.  The embedding realizes that
semantics by inserting each element, in input order, after all already
placed elements whose key is at least (descending) or at most
(ascending) its own. -/

/-- Stable descending insertion: the new element passes every element
whose key is not strictly smaller, so equal keys keep input order. -/
noncomputable def insertDescBy (k : Product → ℝ) (x : Product) :
    List Product → List Product
  | [] => [x]
  | y :: ys => if k y < k x then x :: y :: ys else y :: insertDescBy k x ys

/-- Python `sorted(l, key=k, reverse=True)`. -/
noncomputable def pySortedDescBy (k : Product → ℝ) (l : List Product) :
    List Product :=
  l.foldl (fun acc x => insertDescBy k x acc) []

/-- Stable ascending insertion for `sorted(l, key=k)`. -/
noncomputable def insertAscBy (k : Product → ℝ) (x : Product) :
    List Product → List Product
  | [] => [x]
  | y :: ys => if k x < k y then x :: y :: ys else y :: insertAscBy k x ys

/-- Python `sorted(l, key=k)`. -/
noncomputable def pySortedAscBy (k : Product → ℝ) (l : List Product) :
    List Product :=
  l.foldl (fun acc x => insertAscBy k x acc) []

/-- ItemComparator.rank_products: empty input short-circuits; the four
known methods sort (descending by composite score, ascending by numeric
price, descending by rating, descending by sales) and truncate to
`limit`; an unknown method recurses with the `score` method.  The
try/except fallback of the source is dead: sorting a finite list with a
total scoring function cannot fail. -/
noncomputable def rank_products (products : List Product)
    (ranking_method : String) (limit : Nat) : List Product :=
  if products.isEmpty then []
  else if ranking_method = "score" then
    (pySortedDescBy composite_score products).take limit
  else if ranking_method = "price" then
    (pySortedAscBy (fun p => ((extract_price_value p.price : ℝ))) products).take limit
  else if ranking_method = "rating" then
    (pySortedDescBy (fun p => ((p.rating : ℝ))) products).take limit
  else if ranking_method = "sales" then
    (pySortedDescBy (fun p => ((p.sales : ℝ))) products).take limit
  else rank_products products "score" limit
termination_by (if ranking_method = "score" then 0 else 1)
decreasing_by simp_all

/-! ### Stable-sort characterization used by the ranking claim.

A list is stably sorted in descending key order exactly when it equals
the list obtained by indexing the input by position, sorting by the
strict lexicographic priority (bigger key first, smaller original index
first on equal keys), and dropping the indices. -/

/-- Pair every element with its input position, starting at i. -/
def withIdx : Nat → List Product → List (Nat × Product)
  | _, [] => []
  | i, x :: xs => (i, x) :: withIdx (i + 1) xs

/-- Insertion by strict lexicographic priority: bigger key first, and on
equal keys smaller original index first. -/
noncomputable def insertLex (k : Product → ℝ) (x : Nat × Product) :
    List (Nat × Product) → List (Nat × Product)
  | [] => [x]
  | y :: ys =>
    if k y.2 < k x.2 ∨ (k x.2 = k y.2 ∧ x.1 < y.1) then x :: y :: ys
    else y :: insertLex k x ys

/-- The stable descending sort specification: index, sort by the strict
lexicographic priority, forget the indices. -/
noncomputable def stableSortDescBy (k : Product → ℝ) (l : List Product) :
    List Product :=
  ((withIdx 0 l).foldl (fun acc q => insertLex k q acc) []).map Prod.snd

theorem insertLex_mem (k : Product → ℝ) (x r : Nat × Product) :
    ∀ acc : List (Nat × Product), r ∈ insertLex k x acc → r = x ∨ r ∈ acc := by
  intro acc
  induction acc with
  | nil =>
    intro h
    unfold insertLex at h
    simp at h
    exact Or.inl h
  | cons y ys ih =>
    intro h
    unfold insertLex at h
    by_cases hc : (k y.2 < k x.2 ∨ (k x.2 = k y.2 ∧ x.1 < y.1))
    · rw [if_pos hc] at h
      rcases List.mem_cons.mp h with h | h
      · exact Or.inl h
      · exact Or.inr h
    · rw [if_neg hc] at h
      rcases List.mem_cons.mp h with h | h
      · exact Or.inr (by simp [h])
      · rcases ih h with h2 | h2
        · exact Or.inl h2
        · exact Or.inr (List.mem_cons_of_mem _ h2)

theorem insertDesc_eq_insertLex (k : Product → ℝ) (x : Product) (i : Nat) :
    ∀ acc : List (Nat × Product), (∀ q ∈ acc, q.1 < i) →
      insertDescBy k x (acc.map Prod.snd)
        = (insertLex k (i, x) acc).map Prod.snd := by
  intro acc
  induction acc with
  | nil => intro _; rfl
  | cons y ys ih =>
    intro hlt
    have hyi : y.1 < i := hlt y (List.mem_cons_self _ _)
    by_cases h : k y.2 < k x
    · rw [show (y :: ys).map Prod.snd = y.2 :: ys.map Prod.snd from rfl]
      unfold insertDescBy insertLex
      rw [if_pos h, if_pos (Or.inl h)]
      rfl
    · have hnotlex : ¬ (k y.2 < k x ∨ (k x = k y.2 ∧ i < y.1)) := by
        rintro (hc | ⟨-, hc⟩)
        · exact h hc
        · omega
      rw [show (y :: ys).map Prod.snd = y.2 :: ys.map Prod.snd from rfl]
      unfold insertDescBy insertLex
      rw [if_neg h, if_neg hnotlex]
      rw [show ((y :: insertLex k (i, x) ys).map Prod.snd)
          = y.2 :: (insertLex k (i, x) ys).map Prod.snd from rfl]
      rw [ih (fun q hq => hlt q (List.mem_cons_of_mem _ hq))]

theorem foldl_insertDesc_eq (k : Product → ℝ) :
    ∀ (pairs : List (Nat × Product)) (acc : List (Nat × Product)),
      (∀ q ∈ acc, ∀ r ∈ pairs, q.1 < r.1) →
      List.Pairwise (fun a b : Nat × Product => a.1 < b.1) pairs →
      List.foldl (fun a x => insertDescBy k x a) (acc.map Prod.snd)
          (pairs.map Prod.snd)
        = (List.foldl (fun a q => insertLex k q a) acc pairs).map Prod.snd := by
  intro pairs
  induction pairs with
  | nil => intro acc _ _; rfl
  | cons p t ih =>
    intro acc hidx hpw
    rw [show ((p :: t).map Prod.snd) = p.2 :: t.map Prod.snd from rfl]
    rw [List.foldl_cons, List.foldl_cons]
    have hstep : insertDescBy k p.2 (acc.map Prod.snd)
        = (insertLex k (p.1, p.2) acc).map Prod.snd :=
      insertDesc_eq_insertLex k p.2 p.1 acc
        (fun q hq => hidx q hq p (List.mem_cons_self _ _))
    rw [hstep]
    have hacc2 : ∀ q ∈ insertLex k (p.1, p.2) acc, ∀ r ∈ t, q.1 < r.1 := by
      intro q hq r hr
      rcases insertLex_mem k (p.1, p.2) q acc hq with h | h
      · subst h
        exact (List.pairwise_cons.mp hpw).1 r hr
      · exact hidx q h r (List.mem_cons_of_mem _ hr)
    have hq : (p.1, p.2) = p := rfl
    rw [hq] at hacc2 ⊢
    exact ih (insertLex k p acc) hacc2 (List.pairwise_cons.mp hpw).2

theorem withIdx_map_snd : ∀ (l : List Product) (i : Nat),
    (withIdx i l).map Prod.snd = l := by
  intro l
  induction l with
  | nil => intro i; rfl
  | cons x xs ih =>
    intro i
    unfold withIdx
    rw [show (((i, x) :: withIdx (i + 1) xs).map Prod.snd)
        = x :: (withIdx (i + 1) xs).map Prod.snd from rfl]
    rw [ih (i + 1)]

theorem withIdx_idx_ge : ∀ (l : List Product) (i : Nat),
    ∀ q ∈ withIdx i l, i ≤ q.1 := by
  intro l
  induction l with
  | nil => intro i q hq; exact absurd hq (by simp [withIdx])
  | cons x xs ih =>
    intro i q hq
    unfold withIdx at hq
    rcases List.mem_cons.mp hq with hq | hq
    · simp [hq]
    · have := ih (i + 1) q hq
      omega

theorem withIdx_pairwise : ∀ (l : List Product) (i : Nat),
    List.Pairwise (fun a b : Nat × Product => a.1 < b.1) (withIdx i l) := by
  intro l
  induction l with
  | nil => intro i; exact List.Pairwise.nil
  | cons x xs ih =>
    intro i
    unfold withIdx
    refine List.pairwise_cons.mpr ⟨?_, ih (i + 1)⟩
    intro q hq
    have := withIdx_idx_ge xs (i + 1) q hq
    omega

/-- The Python stable descending sort equals the indexed lexicographic
sort with the indices forgotten: ties are broken by input position. -/
theorem pySortedDescBy_eq_stable (k : Product → ℝ) (l : List Product) :
    pySortedDescBy k l = stableSortDescBy k l := by
  unfold pySortedDescBy stableSortDescBy
  have h := foldl_insertDesc_eq k (withIdx 0 l) []
    (by intro q hq; exact absurd hq (by simp))
    (withIdx_pairwise l 0)
  rw [withIdx_map_snd l 0] at h
  rw [show (([] : List (Nat × Product)).map Prod.snd) = [] from rfl] at h
  exact h

theorem insertDescBy_length (k : Product → ℝ) (x : Product) :
    ∀ l : List Product, (insertDescBy k x l).length = l.length + 1 := by
  intro l
  induction l with
  | nil => rfl
  | cons y ys ih =>
    unfold insertDescBy
    split
    · rfl
    · rw [show ((y :: insertDescBy k x ys).length)
        = (insertDescBy k x ys).length + 1 from rfl, ih]
      rfl

theorem pySortedDescBy_length (k : Product → ℝ) (l : List Product) :
    (pySortedDescBy k l).length = l.length := by
  unfold pySortedDescBy
  suffices h : ∀ (l : List Product) (acc : List Product),
      (l.foldl (fun acc x => insertDescBy k x acc) acc).length
        = acc.length + l.length by
    simpa using h l []
  intro l
  induction l with
  | nil => intro acc; simp
  | cons x xs ih =>
    intro acc
    rw [List.foldl_cons, ih (insertDescBy k x acc), insertDescBy_length,
      List.length_cons]
    omega

/-- C4: ranking with method score returns the input list stably sorted
in descending order of composite score (ties keep input order, which the
indexed lexicographic sort makes precise), truncated to the first
`limit` elements; the result is a function of the input (deterministic)
and its length is bounded by the limit and by the input length. -/
theorem c4_rank_score_stable (products : List Product) (limit : Nat) :
    rank_products products "score" limit
      = (stableSortDescBy composite_score products).take limit
    ∧ (rank_products products "score" limit).length ≤ limit
    ∧ (rank_products products "score" limit).length ≤ products.length := by
  have hmain : rank_products products "score" limit
      = (stableSortDescBy composite_score products).take limit := by
    unfold rank_products
    by_cases he : products.isEmpty
    · rw [if_pos he]
      have : products = [] := List.isEmpty_iff.mp he
      subst this
      simp [stableSortDescBy, withIdx]
    · rw [if_neg he, if_pos rfl]
      rw [pySortedDescBy_eq_stable]
  refine ⟨hmain, ?_, ?_⟩
  · rw [hmain]
    have h1 := List.length_take limit (stableSortDescBy composite_score products)
    omega
  · rw [hmain, ← pySortedDescBy_eq_stable]
    have h1 := List.length_take limit (pySortedDescBy composite_score products)
    have h2 := pySortedDescBy_length composite_score products
    omega

/-- C10: every ranking method outside the four known ones falls back to
the score method. -/
theorem c10_unknown_method_fallback (products : List Product)
    (ranking_method : String) (limit : Nat)
    (h1 : ranking_method ≠ "score") (h2 : ranking_method ≠ "price")
    (h3 : ranking_method ≠ "rating") (h4 : ranking_method ≠ "sales") :
    rank_products products ranking_method limit
      = rank_products products "score" limit := by
  conv_lhs => rw [rank_products]
  rw [if_neg h1, if_neg h2, if_neg h3, if_neg h4]
  by_cases he : products.isEmpty
  · rw [if_pos he]
    unfold rank_products
    rw [if_pos he]
  · rw [if_neg he]

/-- Two-product list used by the ranking fallback witness. -/
def fallbackWitnessList : List Product :=
  [{ title := "Gadget A", price := "$5.00", rating := 3, sales := 10,
     image_url := "", product_url := "https://www.ebay.com/itm/2",
     source := "eBay" },
   { title := "Gadget B", price := "$7.00", rating := 4, sales := 3,
     image_url := "", product_url := "https://www.ebay.com/itm/3",
     source := "eBay" }]

/-- Witness for C10: the unknown method name "foo" ranks exactly like
the score method on a concrete two-product list. -/
theorem c10_witness :
    rank_products fallbackWitnessList "foo" 2
      = rank_products fallbackWitnessList "score" 2 :=
  c10_unknown_method_fallback fallbackWitnessList "foo" 2
    (by decide) (by decide) (by decide) (by decide)

/-! ## src/scrapers/base_scraper.py and src/scrapers/ebay_scraper.py

A result element is abstracted by the outcome of each CSS query the
extraction code performs on it: the text candidates its title chain can
see, the texts of the price/reviews/sold spans when present, the image
attribute candidates, and the href of the product link.  These are
exactly the degrees of freedom `_parse_product` reads. -/

/-- BaseScraper._clean_text: strip, then replace newlines and tabs by
spaces.  Empty or missing text gives the empty string. -/
def clean_text (text : String) : String :=
  if text.isEmpty then ""
  else ((pyStrip text).toList.map
    (fun c => if c = '\n' then ' ' else if c = '\t' then ' ' else c)).asString

/-- First maximal digit run in the text, the regex `(\d+)`. -/
def firstNatRun (cs : List Char) : Option Nat :=
  match cs with
  | [] => none
  | c :: rest =>
    if c.isDigit then some (digitsToNat (c :: rest.takeWhile Char.isDigit))
    else firstNatRun rest

/-- Leftmost match of the regex `(\d+)\s*sold`: a digit run, optional
whitespace, then the literal, scanning start positions left to right. -/
def natBeforeSold (cs : List Char) : Option Nat :=
  match cs with
  | [] => none
  | c :: rest =>
    if c.isDigit then
      let run := c :: rest.takeWhile Char.isDigit
      let after := rest.dropWhile Char.isDigit
      if headMatch ("sold".toList) (after.dropWhile pyWs) then
        some (digitsToNat run)
      else natBeforeSold rest
    else natBeforeSold rest

/-- The eBay base URL. -/
def ebayBaseUrl : String := "https://www.ebay.com"

/-- Resolution of a relative reference against a base URL, covering the
absolute-path references this code produces (urllib.parse.urljoin). -/
def urljoin (base url : String) : String :=
  if pyStartsWith url "/" then base ++ url else base ++ "/" ++ url

/-- Element abstraction for one eBay search result.  `titleTexts` lists
the texts that the first successful title method exposes through its
text-source chain, in the order the code reads them; `linkTexts` feeds
the long-anchor-text fallback. -/
structure EbayElement where
  titleTexts : List String
  linkTexts : List String
  priceText : Option String
  reviewsText : Option String
  soldText : Option String
  imageCandidates : List String
  linkHref : Option String
deriving DecidableEq, Repr

/-- Title produced by the method/text-source chains: the first cleaned
candidate longer than five characters, else the "Unknown Item"
placeholder the method loop leaves in place. -/
def ebay_title_after_methods (e : EbayElement) : String :=
  match (e.titleTexts.map clean_text).find?
      (fun c => !c.isEmpty && decide (5 < c.length)) with
  | some c => c
  | none => "Unknown Item"

/-- Long-anchor-text fallback; its guard `len(title) <= 5` can only fire
when the placeholder was replaced by a short extraction, since the
placeholder itself is twelve characters long. -/
def ebay_title_fallback (e : EbayElement) (title : String) : String :=
  if title.isEmpty || title.length ≤ 5 then
    match (e.linkTexts.map clean_text).find?
        (fun c => !c.isEmpty && decide (10 < c.length)) with
    | some c => c
    | none => title
  else title

/-- Strip one leading junk tag and re-strip whitespace. -/
def stripLeadTag (t : String) (tag : String) : String :=
  if pyStartsWith t tag then pyStrip ((t.toList.drop tag.length).asString) else t

/-- Title cleanup block: junk heads, the bar-separated suffix, and the
"Shop on eBay" tail. -/
def ebay_title_cleanup (title : String) : String :=
  if title.isEmpty then title
  else
    let t1 := ["New Listing", "SPONSORED", "Hot This Week"].foldl stripLeadTag title
    let t2 := if strContains t1 "|" then pyStrip (strBefore t1 "|") else t1
    if pyEndsWith t2 "Shop on eBay" then
      pyStrip ((t2.toList.take (t2.toList.length - 12)).asString)
    else t2

/-- Price block: cleaned span text, lower bound of a textual range, and
shipping suffix stripped. -/
def ebay_price (e : EbayElement) : String :=
  match e.priceText with
  | none => "N/A"
  | some ptext =>
    let p := clean_text ptext
    let p1 := if strContains (pyLower p) "to" then pyStrip (strBefore p "to") else p
    if strContains p1 "+" then pyStrip (strBefore p1 "+") else p1

/-- Review count read from the reviews-count span. -/
def ebay_review_count (e : EbayElement) : Option Nat :=
  e.reviewsText.bind (fun t => firstNatRun t.toList)

/-- Review-count buckets that derive a coarse rating. -/
def ebay_rating_of_count (review_count : Nat) : Rat :=
  if 100 < review_count then 5
  else if 50 < review_count then 4.5
  else if 20 < review_count then 4
  else if 10 < review_count then 3.5
  else if 5 < review_count then 3
  else 2.5

/-- Rating block: buckets when a review count is visible, else the 0.0
default. -/
def ebay_rating (e : EbayElement) : Rat :=
  match ebay_review_count e with
  | some n => ebay_rating_of_count n
  | none => 0

/-- Sales block: the `(\d+)\s*sold` match on the dynamic span, else 0. -/
def ebay_sales (e : EbayElement) : Nat :=
  match e.soldText with
  | some t => (natBeforeSold t.toList).getD 0
  | none => 0

/-- Image block: first truthy attribute, query string dropped, relative
references resolved, small-thumbnail tokens upsized. -/
def ebay_image (e : EbayElement) : String :=
  match e.imageCandidates.find? (fun s => !s.isEmpty) with
  | none => ""
  | some u =>
    let u1 := if strContains u "?" then strBefore u "?" else u
    let u2 := if pyStartsWith u1 "http" then u1 else urljoin ebayBaseUrl u1
    if strContains u2 "s-l" then
      (u2.replace "s-l64" "s-l300").replace "s-l140" "s-l300"
    else u2

/-- Product-link block: the href of the s-item link, resolved against
the base URL when relative; with no link the empty default survives. -/
def ebay_product_url (e : EbayElement) : String :=
  match e.linkHref with
  | none => ""
  | some href =>
    if !href.isEmpty && !pyStartsWith href "http" then urljoin ebayBaseUrl href
    else href

/-- Promotional patterns whose presence in the title rejects the
candidate. -/
def ebayAdTags : List String :=
  ["Shop on eBay", "Browse categories", "Sponsored", "Advertisement",
   "See more like this", "Trending at", "Related searches"]

/-- Complete title pipeline: methods, fallback, cleanup. -/
def ebay_title_final (e : EbayElement) : String :=
  ebay_title_cleanup (ebay_title_fallback e (ebay_title_after_methods e))

/-- EbayScraper._parse_product: field extraction, then validation that
only inspects the title (placeholder, minimum length, ad patterns); the
rating is capped at 5 on construction. -/
def ebay_parse_product (e : EbayElement) : Option Product :=
  let title := ebay_title_final e
  if title.isEmpty || title = "Unknown Item" || decide (title.length < 5) then
    none
  else if ebayAdTags.any
      (fun pat => strContains (pyLower title) (pyLower pat)) then
    none
  else
    some { title := title,
           price := ebay_price e,
           rating := min (ebay_rating e) 5,
           sales := ebay_sales e,
           image_url := ebay_image e,
           product_url := ebay_product_url e,
           source := "eBay" }

/-! ## src/scrapers/amazon_scraper.py -/

/-- The Amazon base URL. -/
def amazonBaseUrl : String := "https://www.amazon.com"

/-- One anchor of an Amazon result element: its href and its text. -/
structure AmazonLink where
  href : String
  text : String
deriving DecidableEq, Repr

/-- Element abstraction for one Amazon search result: the title-recipe
text, the h2 title-link text, every anchor with an href in document
order, the fallback selector texts, the price span pieces, the icon-alt
rating text, the first normal-link text (review-count proxy), the image
attribute candidates and the h2 fallback href. -/
structure AmazonElement where
  titleRecipeText : Option String
  h2TitleLinkText : Option String
  links : List AmazonLink
  selectorTitleTexts : List String
  priceWhole : Option String
  priceFraction : Option String
  altPriceTexts : List String
  ratingText : Option String
  reviewLinkText : Option String
  imageSrcs : List String
  h2LinkHref : Option String
deriving DecidableEq, Repr

/-- Fourth title method: each matched selector assigns the cleaned text,
and the loop stops at the first one longer than five characters. -/
def amazon_title_selector_loop : List String → String → String
  | [], title => title
  | t :: rest, title =>
    let c := clean_text t
    if !c.isEmpty && decide (5 < c.length) then c
    else amazon_title_selector_loop rest c

/-- Whether an href looks like a product path. -/
def amazonProductHref (href : String) : Bool :=
  strContains href "/dp/" || strContains href "/gp/"

/-- Title extraction: data-cy recipe, then the h2 link, then any product
link with anchor text longer than fifteen characters, then the fallback
selectors; each later method runs only while the title is still missing
or the placeholder. -/
def amazon_title (e : AmazonElement) : String :=
  let t1 := match e.titleRecipeText with
    | some t => clean_text t
    | none => "Unknown Item"
  let t2 := if t1.isEmpty || t1 = "Unknown Item" then
      match e.h2TitleLinkText with
      | some t => clean_text t
      | none => t1
    else t1
  let t3 := if t2.isEmpty || t2 = "Unknown Item" then
      match e.links.find? (fun l => amazonProductHref l.href
          && (let c := clean_text l.text; !c.isEmpty && decide (15 < c.length))) with
      | some l => clean_text l.text
      | none => t2
    else t2
  if t3.isEmpty || t3 = "Unknown Item" then
    amazon_title_selector_loop e.selectorTitleTexts t3
  else t3

/-- Price extraction: whole/fraction spans concatenated behind a dollar
sign (trailing dots stripped from the whole part), else the first
alternative selector text, else the "N/A" default. -/
def amazon_price (e : AmazonElement) : String :=
  match e.priceWhole with
  | some w =>
    let wt := ((w.toList.reverse.dropWhile (fun c => c = '.')).reverse).asString
    let pt := match e.priceFraction with
      | some f => wt ++ "." ++ f
      | none => wt
    "$" ++ pt
  | none =>
    match e.altPriceTexts with
    | t :: _ => clean_text t
    | [] => "N/A"

/-- Leftmost match of the regex `(\d+\.?\d*)\s*out of`: an integer run,
an optional fraction, optional whitespace, then the literal, scanning
start positions left to right. -/
def ratingOutOf (cs : List Char) : Option Rat :=
  match cs with
  | [] => none
  | c :: rest =>
    if c.isDigit then
      let ip := c :: rest.takeWhile Char.isDigit
      let after1 := rest.dropWhile Char.isDigit
      let fp := match after1 with
        | '.' :: r2 => r2.takeWhile Char.isDigit
        | _ => []
      let after2 := match after1 with
        | '.' :: r2 => r2.dropWhile Char.isDigit
        | _ => after1
      if headMatch ("out of".toList) (after2.dropWhile pyWs) then
        some ((digitsToNat ip : Rat) + (digitsToNat fp : Rat) / (10 : Rat) ^ fp.length)
      else ratingOutOf rest
    else ratingOutOf rest

/-- Rating extraction from the icon-alt text. -/
def amazon_rating (e : AmazonElement) : Rat :=
  match e.ratingText with
  | some t =>
    match ratingOutOf t.toList with
    | some r => r
    | none => 0
  | none => 0

/-- Review-count-as-sales proxy: first digit run of the comma-stripped
first normal-link text. -/
def amazon_sales (e : AmazonElement) : Nat :=
  match e.reviewLinkText with
  | some t =>
    if t.isEmpty then 0
    else (firstNatRun (t.toList.filter (fun c => c != ','))).getD 0
  | none => 0

/-- Image extraction: first truthy attribute, resolved when relative. -/
def amazon_image (e : AmazonElement) : String :=
  match e.imageSrcs.find? (fun s => !s.isEmpty) with
  | none => ""
  | some u => if !pyStartsWith u "http" then urljoin amazonBaseUrl u else u

/-- Product-URL extraction: first anchor with a product path href, else
the h2 fallback link, else the empty default. -/
def amazon_product_url (e : AmazonElement) : String :=
  match e.links.find? (fun l => !l.href.isEmpty && amazonProductHref l.href) with
  | some l =>
    if !pyStartsWith l.href "http" then urljoin amazonBaseUrl l.href else l.href
  | none =>
    match e.h2LinkHref with
    | some href =>
      if href.isEmpty then ""
      else if !pyStartsWith href "http" then urljoin amazonBaseUrl href
      else href
    | none => ""

/-- AmazonScraper._parse_product: field extraction, then validation that
only inspects the title; the rating is capped at 5 on construction. -/
def amazon_parse_product (e : AmazonElement) : Option Product :=
  let title := amazon_title e
  if title.isEmpty || title = "Unknown Item" || decide (title.length < 5) then
    none
  else
    some { title := title,
           price := amazon_price e,
           rating := min (amazon_rating e) 5,
           sales := amazon_sales e,
           image_url := amazon_image e,
           product_url := amazon_product_url e,
           source := "Amazon" }

/-! ### Projection lemmas for the two extraction functions. -/

theorem ebay_parse_some (e : EbayElement) (p : Product)
    (h : ebay_parse_product e = some p) :
    p.title = ebay_title_final e
    ∧ 5 ≤ (ebay_title_final e).length
    ∧ ebay_title_final e ≠ "Unknown Item"
    ∧ ebayAdTags.any
        (fun pat => strContains (pyLower (ebay_title_final e)) (pyLower pat))
      = false
    ∧ p.rating = min (ebay_rating e) 5
    ∧ p.product_url = ebay_product_url e := by
  unfold ebay_parse_product at h
  simp only [] at h
  split at h
  · exact absurd h (by simp)
  · rename_i hc1
    split at h
    · exact absurd h (by simp)
    · rename_i hc2
      injection h with h
      subst h
      have hlen : ¬ ((ebay_title_final e).length < 5) := by
        intro hl
        exact hc1 (by simp [hl])
      have hunk : ebay_title_final e ≠ "Unknown Item" := by
        intro hq
        exact hc1 (by simp [hq])
      refine ⟨rfl, by omega, hunk, ?_, rfl, rfl⟩
      exact Bool.eq_false_iff.mpr hc2

theorem amazon_parse_some (e : AmazonElement) (p : Product)
    (h : amazon_parse_product e = some p) :
    p.title = amazon_title e
    ∧ 5 ≤ (amazon_title e).length
    ∧ amazon_title e ≠ "Unknown Item"
    ∧ p.rating = min (amazon_rating e) 5
    ∧ p.product_url = amazon_product_url e := by
  unfold amazon_parse_product at h
  simp only [] at h
  split at h
  · exact absurd h (by simp)
  · rename_i hc1
    injection h with h
    subst h
    have hlen : ¬ ((amazon_title e).length < 5) := by
      intro hl
      exact hc1 (by simp [hl])
    have hunk : amazon_title e ≠ "Unknown Item" := by
      intro hq
      exact hc1 (by simp [hq])
    exact ⟨rfl, by omega, hunk, rfl, rfl⟩

/-! ### Rating range facts. -/

theorem ebay_rating_of_count_range (n : Nat) :
    0 ≤ ebay_rating_of_count n ∧ ebay_rating_of_count n ≤ 5 := by
  unfold ebay_rating_of_count
  split_ifs <;> norm_num

theorem ebay_rating_nonneg (e : EbayElement) : 0 ≤ ebay_rating e := by
  unfold ebay_rating
  cases h : ebay_review_count e with
  | none => exact le_refl 0
  | some n => exact (ebay_rating_of_count_range n).1

theorem ratingOutOf_nonneg : ∀ (cs : List Char) (r : Rat),
    ratingOutOf cs = some r → 0 ≤ r := by
  intro cs
  induction cs with
  | nil =>
    intro r h
    exact absurd h (by simp [ratingOutOf])
  | cons c rest ih =>
    intro r h
    unfold ratingOutOf at h
    split at h
    · simp only [] at h
      split at h
      · injection h with h
        subst h
        positivity
      · exact ih r h
    · exact ih r h

theorem amazon_rating_nonneg (e : AmazonElement) : 0 ≤ amazon_rating e := by
  unfold amazon_rating
  cases ht : e.ratingText with
  | none => exact le_refl 0
  | some t =>
    cases hr : ratingOutOf t.toList with
    | none =>
      have hr2 : ratingOutOf t.data = none := hr
      simp [hr2]
    | some r =>
      have hnn := ratingOutOf_nonneg t.toList r hr
      have hr2 : ratingOutOf t.data = some r := hr
      simp [hr2, hnn]

/-- C8: every Product produced by either extraction has a rating in
[0, 5], and where only a review count is visible (eBay) the rating
follows the documented bucket thresholds in order, with the final cap
at 5 never changing a bucket value. -/
theorem c8_rating_range_and_buckets :
    (∀ (e : EbayElement) (p : Product), ebay_parse_product e = some p →
        0 ≤ p.rating ∧ p.rating ≤ 5)
    ∧ (∀ (e : AmazonElement) (p : Product), amazon_parse_product e = some p →
        0 ≤ p.rating ∧ p.rating ≤ 5)
    ∧ (∀ (e : EbayElement) (p : Product) (n : Nat),
        ebay_parse_product e = some p → ebay_review_count e = some n →
        p.rating = ebay_rating_of_count n
        ∧ (100 < n → p.rating = 5)
        ∧ (50 < n ∧ n ≤ 100 → p.rating = 4.5)
        ∧ (20 < n ∧ n ≤ 50 → p.rating = 4)
        ∧ (10 < n ∧ n ≤ 20 → p.rating = 3.5)
        ∧ (5 < n ∧ n ≤ 10 → p.rating = 3)
        ∧ (n ≤ 5 → p.rating = 2.5)) := by
  have hbucket : ∀ (e : EbayElement) (p : Product) (n : Nat),
      ebay_parse_product e = some p → ebay_review_count e = some n →
      p.rating = ebay_rating_of_count n := by
    intro e p n h hn
    obtain ⟨-, -, -, -, hrat, -⟩ := ebay_parse_some e p h
    rw [hrat]
    unfold ebay_rating
    rw [hn]
    exact min_eq_left (ebay_rating_of_count_range n).2
  refine ⟨?_, ?_, ?_⟩
  · intro e p h
    obtain ⟨-, -, -, -, hrat, -⟩ := ebay_parse_some e p h
    rw [hrat]
    exact ⟨le_min (ebay_rating_nonneg e) (by norm_num), min_le_right _ _⟩
  · intro e p h
    obtain ⟨-, -, -, hrat, -⟩ := amazon_parse_some e p h
    rw [hrat]
    exact ⟨le_min (amazon_rating_nonneg e) (by norm_num), min_le_right _ _⟩
  · intro e p n h hn
    have hb := hbucket e p n h hn
    refine ⟨hb, ?_, ?_, ?_, ?_, ?_, ?_⟩ <;>
      intro hcond <;> rw [hb] <;> unfold ebay_rating_of_count <;>
      split_ifs <;> first | rfl | omega

/-- Concrete eBay element whose reviews-count span shows "(123)". -/
def ratedEbayElem : EbayElement :=
  { titleTexts := ["Wireless Bluetooth Headphones Pro"],
    linkTexts := [],
    priceText := some "$29.99",
    reviewsText := some "(123)",
    soldText := some "40 sold",
    imageCandidates := [],
    linkHref := some "https://www.ebay.com/itm/123" }

/-- Product extracted from `ratedEbayElem`. -/
def ratedEbayProduct : Product :=
  { title := "Wireless Bluetooth Headphones Pro",
    price := "$29.99",
    rating := 5,
    sales := 40,
    image_url := "",
    product_url := "https://www.ebay.com/itm/123",
    source := "eBay" }

/-- Concrete Amazon element without any rating indicator. -/
def unratedAmazonElem : AmazonElement :=
  { titleRecipeText := some "USB C Charging Cable 6ft Braided",
    h2TitleLinkText := none,
    links := [],
    selectorTitleTexts := [],
    priceWhole := none,
    priceFraction := none,
    altPriceTexts := [],
    ratingText := none,
    reviewLinkText := none,
    imageSrcs := [],
    h2LinkHref := none }

/-- Product extracted from `unratedAmazonElem`. -/
def unratedAmazonProduct : Product :=
  { title := "USB C Charging Cable 6ft Braided",
    price := "N/A",
    rating := 0,
    sales := 0,
    image_url := "",
    product_url := "",
    source := "Amazon" }

/-- Witness for C8: the element with 123 visible reviews parses to the
bucket rating 5, inside [0, 5]; the Amazon element with no rating
indicator parses to rating 0, inside [0, 5]. -/
theorem c8_witness :
    (0 ≤ ratedEbayProduct.rating ∧ ratedEbayProduct.rating ≤ 5)
    ∧ ratedEbayProduct.rating = ebay_rating_of_count 123
    ∧ ratedEbayProduct.rating = 5
    ∧ (0 ≤ unratedAmazonProduct.rating ∧ unratedAmazonProduct.rating ≤ 5) := by
  have hebay : ebay_parse_product ratedEbayElem = some ratedEbayProduct := by
    decide
  have hamazon : amazon_parse_product unratedAmazonElem
      = some unratedAmazonProduct := by
    decide
  have hcount : ebay_review_count ratedEbayElem = some 123 := by decide
  refine ⟨c8_rating_range_and_buckets.1 ratedEbayElem ratedEbayProduct hebay,
    (c8_rating_range_and_buckets.2.2 ratedEbayElem ratedEbayProduct 123
      hebay hcount).1,
    (c8_rating_range_and_buckets.2.2 ratedEbayElem ratedEbayProduct 123
      hebay hcount).2.1 (by decide),
    c8_rating_range_and_buckets.2.1 unratedAmazonElem unratedAmazonProduct
      hamazon⟩

/-- Concrete eBay element with a plausible title but no product link. -/
def linklessEbayElem : EbayElement :=
  { titleTexts := ["Apple iPhone 14 Pro Max 256GB"],
    linkTexts := [],
    priceText := some "$999.99",
    reviewsText := none,
    soldText := none,
    imageCandidates := [],
    linkHref := none }

/-- Product extracted from `linklessEbayElem`, with its empty link. -/
def linklessEbayProduct : Product :=
  { title := "Apple iPhone 14 Pro Max 256GB",
    price := "$999.99",
    rating := 0,
    sales := 0,
    image_url := "",
    product_url := "",
    source := "eBay" }

/-- C1 counterexample: on an element from which no product link can be
resolved, eBay single-product extraction still returns a Product (with
an empty product_url) instead of discarding the candidate. -/
theorem c1_counterexample :
    linklessEbayElem.linkHref = none
    ∧ (ebay_parse_product linklessEbayElem).isSome = true
    ∧ (ebay_parse_product linklessEbayElem).map Product.product_url
      = some "" := by
  refine ⟨rfl, ?_, ?_⟩ <;> decide

/-- C1 (amended): single-product extraction returns a Product only when
a plausible title was established (minimum length, not the placeholder,
and for eBay no promotional pattern); the product link takes no part in
the validation, and when no link resolves the Product is emitted with
an empty product_url. -/
theorem c1_title_only_validation :
    (∀ (e : EbayElement) (p : Product), ebay_parse_product e = some p →
        5 ≤ p.title.length ∧ p.title ≠ "Unknown Item"
        ∧ ebayAdTags.any
            (fun pat => strContains (pyLower p.title) (pyLower pat)) = false)
    ∧ (∀ (e : AmazonElement) (p : Product), amazon_parse_product e = some p →
        5 ≤ p.title.length ∧ p.title ≠ "Unknown Item")
    ∧ (∀ (e : EbayElement) (p : Product), e.linkHref = none →
        ebay_parse_product e = some p → p.product_url = "")
    ∧ (∀ (e : AmazonElement) (p : Product),
        e.links.find? (fun l => !l.href.isEmpty && amazonProductHref l.href)
          = none →
        e.h2LinkHref = none →
        amazon_parse_product e = some p → p.product_url = "") := by
  refine ⟨?_, ?_, ?_, ?_⟩
  · intro e p h
    obtain ⟨ht, hlen, hunk, had, -, -⟩ := ebay_parse_some e p h
    rw [ht]
    exact ⟨hlen, hunk, had⟩
  · intro e p h
    obtain ⟨ht, hlen, hunk, -, -⟩ := amazon_parse_some e p h
    rw [ht]
    exact ⟨hlen, hunk⟩
  · intro e p hlink h
    obtain ⟨-, -, -, -, -, hurl⟩ := ebay_parse_some e p h
    rw [hurl]
    unfold ebay_product_url
    rw [hlink]
  · intro e p hfind hh2 h
    obtain ⟨-, -, -, -, hurl⟩ := amazon_parse_some e p h
    rw [hurl]
    unfold amazon_product_url
    rw [hfind, hh2]

/-- Witness for C1 at the linkless element: the emitted product has a
long non-placeholder title and carries the empty product link. -/
theorem c1_witness :
    (5 ≤ linklessEbayProduct.title.length
      ∧ linklessEbayProduct.title ≠ "Unknown Item"
      ∧ ebayAdTags.any (fun pat =>
          strContains (pyLower linklessEbayProduct.title) (pyLower pat))
        = false)
    ∧ linklessEbayProduct.product_url = "" := by
  have h : ebay_parse_product linklessEbayElem = some linklessEbayProduct := by
    decide
  exact ⟨c1_title_only_validation.1 linklessEbayElem linklessEbayProduct h,
    c1_title_only_validation.2.2.1 linklessEbayElem linklessEbayProduct
      rfl h⟩

/-! ## The search retry loops and src/scrapers/scraper_manager.py

The transport is abstracted by the outcome of each HTTP attempt: a 200
response carrying the result elements the page parses into, a non-200
status, a timeout, or another exception.  The `for attempt in range(3)`
loop re-raises on the third timeout or error; the enclosing try/except
of the same `search` method catches everything and returns an empty
list.  An `Except` result type records whether an exception escapes. -/

/-- Outcome of one HTTP attempt. -/
inductive FetchOutcome (α : Type)
  | ok (elements : List α)
  | httpError (status : Nat)
  | timeout
  | exc
deriving DecidableEq, Repr

/-- Exceptions the retry loop can re-raise. -/
inductive ScrapeErr
  | timeout
  | exc
deriving DecidableEq, Repr

/-- EbayScraper._parse_search_results: per-element extraction over the
first `max_results` elements, skipping elements that parse to none. -/
def ebay_parse_search_results (elements : List EbayElement)
    (max_results : Nat) : List Product :=
  (elements.take max_results).filterMap ebay_parse_product

/-- AmazonScraper._parse_search_results. -/
def amazon_parse_search_results (elements : List AmazonElement)
    (max_results : Nat) : List Product :=
  (elements.take max_results).filterMap amazon_parse_product

/-- The retry loop of EbayScraper.search: `remaining` counts the
iterations the range-3 loop still owns (the current one included); a
200 response returns the parsed products, a non-200 consumes the
attempt, and a timeout or exception on the last attempt re-raises.
Falling out of the loop returns the empty list. -/
def ebay_search_attempts (out : Nat → FetchOutcome EbayElement)
    (max_results : Nat) : Nat → Nat → Except ScrapeErr (List Product)
  | _, 0 => .ok []
  | attempt, remaining + 1 =>
    match out attempt with
    | .ok elements => .ok (ebay_parse_search_results elements max_results)
    | .httpError _ => ebay_search_attempts out max_results (attempt + 1) remaining
    | .timeout =>
      if remaining = 0 then .error .timeout
      else ebay_search_attempts out max_results (attempt + 1) remaining
    | .exc =>
      if remaining = 0 then .error .exc
      else ebay_search_attempts out max_results (attempt + 1) remaining

/-- The three-attempt loop of EbayScraper.search. -/
def ebay_search_loop (out : Nat → FetchOutcome EbayElement)
    (max_results : Nat) : Except ScrapeErr (List Product) :=
  ebay_search_attempts out max_results 0 3

/-- EbayScraper.search: the enclosing try/except catches whatever the
loop re-raises, logs, and returns an empty list, so the method never
lets an exception escape. -/
def ebay_search (out : Nat → FetchOutcome EbayElement)
    (max_results : Nat) : Except ScrapeErr (List Product) :=
  match ebay_search_loop out max_results with
  | .ok products => .ok products
  | .error _ => .ok []

/-- The retry loop of AmazonScraper.search, identical in shape. -/
def amazon_search_attempts (out : Nat → FetchOutcome AmazonElement)
    (max_results : Nat) : Nat → Nat → Except ScrapeErr (List Product)
  | _, 0 => .ok []
  | attempt, remaining + 1 =>
    match out attempt with
    | .ok elements => .ok (amazon_parse_search_results elements max_results)
    | .httpError _ => amazon_search_attempts out max_results (attempt + 1) remaining
    | .timeout =>
      if remaining = 0 then .error .timeout
      else amazon_search_attempts out max_results (attempt + 1) remaining
    | .exc =>
      if remaining = 0 then .error .exc
      else amazon_search_attempts out max_results (attempt + 1) remaining

/-- The three-attempt loop of AmazonScraper.search. -/
def amazon_search_loop (out : Nat → FetchOutcome AmazonElement)
    (max_results : Nat) : Except ScrapeErr (List Product) :=
  amazon_search_attempts out max_results 0 3

/-- AmazonScraper.search with its enclosing try/except. -/
def amazon_search (out : Nat → FetchOutcome AmazonElement)
    (max_results : Nat) : Except ScrapeErr (List Product) :=
  match amazon_search_loop out max_results with
  | .ok products => .ok products
  | .error _ => .ok []

/-- The scraper dict keys of ScraperManager.__init__. -/
def scraperKeys : List String := ["amazon", "ebay"]

/-- The alias table of ScraperManager.__init__. -/
def platformAliases : List (String × String) :=
  [("amazon.com", "amazon"), ("amazon", "amazon"), ("amzn", "amazon"),
   ("ebay.com", "ebay"), ("ebay", "ebay"), ("bay", "ebay")]

/-- ScraperManager.normalize_platform: falsy input gives none, then a
direct key match, then an alias lookup. -/
def normalize_platform (platform : String) : Option String :=
  if platform.isEmpty then none
  else
    let pl := pyLower (pyStrip platform)
    if scraperKeys.contains pl then some pl
    else
      match platformAliases.find? (fun a => a.1 = pl) with
      | some a => some a.2
      | none => none

/-- ScraperManager.search: an unresolved platform gives an empty list,
otherwise the resolved scraper is called under a try/except that turns
any raised exception into an empty list. -/
def scraper_manager_search (platform : String)
    (amazonOut : Nat → FetchOutcome AmazonElement)
    (ebayOut : Nat → FetchOutcome EbayElement)
    (max_results : Nat) : List Product :=
  match normalize_platform platform with
  | none => []
  | some np =>
    let result : Except ScrapeErr (List Product) :=
      if np = "amazon" then amazon_search amazonOut max_results
      else if np = "ebay" then ebay_search ebayOut max_results
      else .ok []
    match result with
    | .ok products => products
    | .error _ => []

/-- Transport that times out on every attempt. -/
def allTimeouts (α : Type) : Nat → FetchOutcome α := fun _ => .timeout

/-- C2 counterexample: with three consecutive timeouts the retry loop
does re-raise, but EbayScraper.search itself swallows the exception and
returns the empty list, so no exception reaches the Scraper Registry
boundary. -/
theorem c2_counterexample :
    ebay_search_loop (allTimeouts EbayElement) 50
      = Except.error ScrapeErr.timeout
    ∧ ebay_search (allTimeouts EbayElement) 50 = Except.ok [] := by
  exact ⟨rfl, rfl⟩

/-- C2 (amended): whenever the retry loop exhausts its attempts and
re-raises, the exception is caught by the same search method, which
returns an empty list at the scraper layer; ScraperManager.search then
passes that empty list through (its own exception-to-empty-list
conversion is not exercised on this path). -/
theorem c2_scraper_layer_swallows (ebayOut : Nat → FetchOutcome EbayElement)
    (amazonOut : Nat → FetchOutcome AmazonElement) (max_results : Nat)
    (err : ScrapeErr)
    (h : ebay_search_loop ebayOut max_results = Except.error err) :
    ebay_search ebayOut max_results = Except.ok []
    ∧ scraper_manager_search "ebay" amazonOut ebayOut max_results = [] := by
  have hsearch : ebay_search ebayOut max_results = Except.ok [] := by
    unfold ebay_search
    rw [h]
  refine ⟨hsearch, ?_⟩
  unfold scraper_manager_search
  have hn : normalize_platform "ebay" = some "ebay" := by decide
  rw [hn]
  simp only []
  rw [if_neg (by decide : ¬ ("ebay" = "amazon"))]
  simp [hsearch]

/-- Witness for C2 at the all-timeouts transport. -/
theorem c2_witness :
    ebay_search (allTimeouts EbayElement) 50 = Except.ok []
    ∧ scraper_manager_search "ebay" (allTimeouts AmazonElement)
        (allTimeouts EbayElement) 50 = [] :=
  c2_scraper_layer_swallows (allTimeouts EbayElement)
    (allTimeouts AmazonElement) 50 ScrapeErr.timeout rfl

end ShopGenie
